import Mathlib

/-!
Verification of the request-context engine of the nest-req-ctx package.

The package stores per-request state in a JavaScript Map bound to the ambient
execution via AsyncLocalStorage.  We embed the service operations
(src/request-context.service.ts), the adapter factory
(src/adapters/adapter.factory.ts) and the three scope initializers
(middleware, guard, interceptor) as Lean functions over an explicit model of
JavaScript runtime values, and prove the spec claims about them.
-/

namespace NestReqCtx

mutual

/-- Model of a JavaScript runtime value as far as the library inspects one:
undefined, null, booleans, numbers (modelled as integers; no claim depends on
float behaviour), strings, plain objects as ordered field lists, and opaque
host objects (request objects, adapter instances) identified by a tag. -/
inductive JsValue where
  | undefined
  | null
  | bool (b : Bool)
  | num (n : Int)
  | str (s : String)
  | obj (fields : JsFields)
  | host (tag : String)
deriving DecidableEq, Repr

/-- Ordered own-field list of a plain JavaScript object. -/
inductive JsFields where
  | nil
  | cons (k : String) (v : JsValue) (rest : JsFields)
deriving DecidableEq, Repr

end

/-- JavaScript truthiness of a value (undefined, null, false, 0 and the empty
string are falsy; objects and host objects are truthy). -/
def truthy : JsValue → Bool
  | .undefined => false
  | .null => false
  | .bool b => b
  | .num n => n != 0
  | .str s => s != ""
  | .obj _ => true
  | .host _ => true

/-- Lookup of an own field of an object field list, first match wins. -/
def lookupField : JsFields → String → JsValue
  | .nil, _ => .undefined
  | .cons k' v rest, k => if k' = k then v else lookupField rest k

/-- JavaScript property read `v[k]`: field lookup on plain objects; undefined
on every other non-null, non-undefined value (prototype members of
primitives and host objects are not relied on by the library).  The library
only ever reads a property after guarding against null and undefined, so
those two cases never feed this function in the embedded code paths. -/
def propAccess : JsValue → String → JsValue
  | .obj fields, k => lookupField fields k
  | _, _ => .undefined

/-- A context store: the JavaScript Map backing one scope, as an
insertion-ordered association list (Map semantics: set updates in place,
iteration follows insertion order). -/
abbrev Store := List (String × JsValue)

/-- Map.prototype.set: overwrite in place when the key exists, append
otherwise. -/
def mapSet : Store → String → JsValue → Store
  | [], k, v => [(k, v)]
  | (k', v') :: rest, k, v =>
    if k' = k then (k, v) :: rest else (k', v') :: mapSet rest k v

/-- Map.prototype.get, with undefined for a missing key (as the service
propagates it). -/
def mapGet : Store → String → JsValue
  | [], _ => .undefined
  | (k', v) :: rest, k => if k' = k then v else mapGet rest k

/-- Map.prototype.has. -/
def mapHas : Store → String → Bool
  | [], _ => false
  | (k', _) :: rest, k => if k' = k then true else mapHas rest k

/-- JavaScript key.startsWith with the two-underscore literal, on the
character list of the key. -/
def startsWithDunder : List Char → Bool
  | '_' :: '_' :: _ => true
  | _ => false

/-- The key.startsWith test of getAll: true iff the key begins with the
two-character double-underscore prefix. -/
def hasDunderPrefix (k : String) : Bool :=
  startsWithDunder k.data

/-- JavaScript String.prototype.split on a one-character separator, on
character lists: every separator occurrence opens a new group, so the result
is never empty and keeps empty groups. -/
def splitChars (sep : Char) : List Char → List (List Char)
  | [] => [[]]
  | c :: rest =>
    if c = sep then [] :: splitChars sep rest
    else
      match splitChars sep rest with
      | [] => [[c]]
      | g :: gs => (c :: g) :: gs

/-- JavaScript path.split with the dot literal. -/
def splitOnDot (s : String) : List String :=
  (splitChars '.' s.data).map (fun l => String.mk l)

/-- Map.prototype.delete, returning the updated store and whether a key was
removed. -/
def mapDelete : Store → String → Store × Bool
  | [], _ => ([], false)
  | (k', v) :: rest, k =>
    if k' = k then (rest, true)
    else
      let (rest', hit) := mapDelete rest k
      ((k', v) :: rest', hit)

/-- Adapter selection tag, src/adapters/adapter.interface.ts
(AdapterType = express | fastify | auto). -/
inductive AdapterType where
  | express
  | fastify
  | auto
deriving DecidableEq, Repr

/-- The two stateless adapter singletons exported by the adapter layer
(expressAdapter, fastifyAdapter). -/
inductive RequestAdapterInst where
  | expressAdapter
  | fastifyAdapter
deriving DecidableEq, Repr

namespace Adapters

/-- detectAdapterType, src/adapters/adapter.factory.ts: a truthy request whose
raw and server properties are both defined is classified fastify, everything
else defaults to express. -/
def detectAdapterType (request : JsValue) : String :=
  if truthy request && !(propAccess request "raw" == JsValue.undefined)
      && !(propAccess request "server" == JsValue.undefined) then
    "fastify"
  else
    "express"

/-- getAdapter, src/adapters/adapter.factory.ts: auto with a truthy request
auto-detects; an explicit fastify picks the fastify singleton; every other
case yields the express singleton. -/
def getAdapter (t : AdapterType) (request : JsValue) : RequestAdapterInst :=
  match t, truthy request with
  | .auto, true =>
    if detectAdapterType request = "fastify" then .fastifyAdapter
    else .expressAdapter
  | .fastify, _ => .fastifyAdapter
  | _, _ => .expressAdapter

end Adapters

/- The reserved internal keys of src/request-context.service.ts
(INTERNAL_KEYS). -/
namespace INTERNAL_KEYS

def REQUEST : String := "__request__"

def ADAPTER : String := "__adapter__"

def ADAPTER_TYPE : String := "__adapter_type__"

end INTERNAL_KEYS

/-- The error message thrown by set when no context is active. -/
def noActiveContextMsg : String :=
  "No active request context. Ensure middleware/guard/interceptor is configured."

/-- The error message thrown by getInstance before onModuleInit ran. -/
def notInitializedMsg : String :=
  "RequestContextService not initialized. Ensure RequestContextModule is imported in your AppModule."

/-- The JsValue the service stores under the adapter-type internal key. -/
def adapterTypeValue : AdapterType → JsValue
  | .express => .str "express"
  | .fastify => .str "fastify"
  | .auto => .str "auto"

/-- The JsValue the service stores under the adapter internal key: the
resolved adapter singleton, an opaque host object. -/
def adapterValue : RequestAdapterInst → JsValue
  | .expressAdapter => .host "expressAdapter"
  | .fastifyAdapter => .host "fastifyAdapter"

namespace RequestContextService

/-- The ambient store seen through asyncLocalStorage.getStore(): none when the
call site is outside every run/runAsync extent. -/
abbrev Ambient := Option Store

/-- isActive: a scope is ambient iff getStore() is defined. -/
def isActive (amb : Ambient) : Bool :=
  amb.isSome

/-- set: throws the NoActiveContext error when no store is ambient, otherwise
stores the value in the ambient Map. -/
def set (amb : Ambient) (key : String) (value : JsValue) : Except String Store :=
  match amb with
  | none => .error noActiveContextMsg
  | some store => .ok (mapSet store key value)

/-- get: optional chaining store?.get(key), undefined when no store is
ambient or the key is missing. -/
def get (amb : Ambient) (key : String) : JsValue :=
  match amb with
  | none => .undefined
  | some store => mapGet store key

/-- has: store?.has(key) ?? false. -/
def has (amb : Ambient) (key : String) : Bool :=
  match amb with
  | none => false
  | some store => mapHas store key

/-- delete: store?.delete(key) ?? false, also returning the resulting ambient
store. -/
def delete (amb : Ambient) (key : String) : Ambient × Bool :=
  match amb with
  | none => (none, false)
  | some store =>
    let (store', hit) := mapDelete store key
    (some store', hit)

/-- The walk of the for loop of getByPath: keeps replacing the current value
by property access while segments remain and the current value is neither
undefined nor null; when the loop stops early the current value itself is
returned. -/
def walkPath (cur : JsValue) : List String → JsValue
  | [] => cur
  | p :: rest =>
    if cur = JsValue.undefined ∨ cur = JsValue.null then cur
    else walkPath (propAccess cur p) rest

/-- getByPath: empty (falsy) path yields undefined; otherwise split on dots,
read the first segment via get, then walk the remaining segments. -/
def getByPath (amb : Ambient) (path : String) : JsValue :=
  if path = "" then .undefined
  else
    match splitOnDot path with
    | [] => .undefined
    | p0 :: rest => walkPath (get amb p0) rest

/-- getAll: empty mapping without an ambient store; otherwise the entries of
the store whose keys do not start with the double underscore, in insertion
order. -/
def getAll (amb : Ambient) : Store :=
  match amb with
  | none => []
  | some store => store.filter (fun e => !(hasDunderPrefix e.1))

/-- clear: empties the ambient store when one exists, no-op otherwise. -/
def clear (amb : Ambient) : Ambient :=
  match amb with
  | none => none
  | some _ => some []

/-- setRequest: three consecutive set calls storing the request object, the
adapter type and the pre-resolved adapter under the internal keys; the first
set already throws when no store is ambient. -/
def setRequest (amb : Ambient) (request : JsValue) (adapterType : AdapterType) :
    Except String Store := do
  let s1 ← set amb INTERNAL_KEYS.REQUEST request
  let s2 ← set (some s1) INTERNAL_KEYS.ADAPTER_TYPE (adapterTypeValue adapterType)
  let adapter := Adapters.getAdapter adapterType request
  let s3 ← set (some s2) INTERNAL_KEYS.ADAPTER (adapterValue adapter)
  pure s3

/-- getRequest: get under the request internal key. -/
def getRequest (amb : Ambient) : JsValue :=
  get amb INTERNAL_KEYS.REQUEST

/-- getAdapter: get under the adapter internal key. -/
def getAdapter (amb : Ambient) : JsValue :=
  get amb INTERNAL_KEYS.ADAPTER

/-- The static singleton slot of RequestContextService: empty until
onModuleInit stores the module-initialized instance.  Instances are
identified by an opaque id. -/
abbrev InstanceSlot := Option Nat

/-- onModuleInit: unconditionally writes this instance into the static
slot. -/
def onModuleInit (self : Nat) (_slot : InstanceSlot) : InstanceSlot :=
  some self

/-- getInstance: throws the NotInitialized error while the static slot is
empty, returns the stored instance afterwards. -/
def getInstance (slot : InstanceSlot) : Except String Nat :=
  match slot with
  | none => .error notInitializedMsg
  | some inst => .ok inst

/-- hasInstance: double negation of the static slot. -/
def hasInstance (slot : InstanceSlot) : Bool :=
  slot.isSome

end RequestContextService

/-
Semantic model of AsyncLocalStorage under the single-threaded cooperative
scheduler: each run/runAsync invocation allocates a fresh Map (a fresh heap
id), asyncLocalStorage.run binds that id to the callback and every
asynchronous continuation it spawns, and getStore() inside the callback
always resolves to the bound id.  A concurrent execution is an arbitrary
interleaving of the store operations of the live callbacks, each operation
tagged with the scope id its issuing callback is bound to; interleaving may
happen at every operation boundary, which over-approximates the real
suspension points (awaits, timers, I/O completions).
-/
namespace ALS

/-- The heap of scope stores, indexed by allocation id. -/
def Heap := Nat → Store

/-- Pointwise heap update at one scope id. -/
def Heap.update (h : Heap) (sid : Nat) (s : Store) : Heap :=
  fun n => if n = sid then s else h n

/-- A store operation issued by code running inside a scope: the two
operations the isolation claim is about. -/
inductive CtxOp where
  | setOp (k : String) (v : JsValue)
  | getOp (k : String)
deriving DecidableEq, Repr

/-- Executes an interleaved schedule of tagged store operations: a set
mutates the store bound to the issuing callback, a get observes a value from
it.  Returns the final heap and the list of observations, each tagged with
the observing scope id. -/
def runSched : Heap → List (Nat × CtxOp) → Heap × List (Nat × JsValue)
  | h, [] => (h, [])
  | h, (sid, .setOp k v) :: rest =>
    runSched (Heap.update h sid (mapSet (h sid) k v)) rest
  | h, (sid, .getOp k) :: rest =>
    let r := runSched h rest
    (r.1, (sid, mapGet (h sid) k) :: r.2)

/-- Sequential semantics of one callback running alone on its own store. -/
def soloRun : Store → List CtxOp → Store × List JsValue
  | s, [] => (s, [])
  | s, .setOp k v :: rest => soloRun (mapSet s k v) rest
  | s, .getOp k :: rest =>
    let r := soloRun s rest
    (r.1, mapGet s k :: r.2)

/-- The operations a schedule contains for one scope id, in program order. -/
def projOps (sid : Nat) (sched : List (Nat × CtxOp)) : List CtxOp :=
  (sched.filter (fun e => e.1 == sid)).map (fun e => e.2)

/-- The observations made by the callback bound to one scope id. -/
def obsAt (sid : Nat) (l : List (Nat × JsValue)) : List JsValue :=
  (l.filter (fun e => e.1 == sid)).map (fun e => e.2)

end ALS

namespace RequestContextService

/-- The store construction shared verbatim by run and runAsync: a new Map
seeded from the optional initialStore entries in order. -/
def newScopeStore (initialStore : List (String × JsValue)) : Store :=
  initialStore.foldl (fun s e => mapSet s e.1 e.2) []

/-- Allocation state of the engine: the heap of scope stores and the next
fresh id (new Map() always yields an object distinct from every live one). -/
structure ScopeAlloc where
  heap : ALS.Heap
  nextId : Nat

/-- run: creates a fresh store seeded from initialStore and binds it via
asyncLocalStorage.run for the dynamic extent of the callback; modelled as
allocation of a fresh scope id holding the seeded store.  The returned id is
the one the callback and all its asynchronous descendants are bound to. -/
def run (st : ScopeAlloc) (initialStore : List (String × JsValue)) :
    Nat × ScopeAlloc :=
  (st.nextId, ⟨ALS.Heap.update st.heap st.nextId (newScopeStore initialStore),
    st.nextId + 1⟩)

/-- runAsync: the body is identical to run (new Map, same seeding loop, same
asyncLocalStorage.run call), only the callback type differs. -/
def runAsync (st : ScopeAlloc) (initialStore : List (String × JsValue)) :
    Nat × ScopeAlloc :=
  (st.nextId, ⟨ALS.Heap.update st.heap st.nextId (newScopeStore initialStore),
    st.nextId + 1⟩)

end RequestContextService

/-- Behaviour of a configured post-init setup hook, as far as the error
channel of the initializers observes it: it returns normally, throws
synchronously, or returns a promise that resolves or rejects.  Store writes
a hook may perform are not part of the propagation claims. -/
inductive HookBehavior where
  | syncOk
  | syncThrow (e : String)
  | asyncResolve
  | asyncReject (e : String)
deriving DecidableEq, Repr

/-- Module options as the initializers read them (adapter selection, the
setRequest flag, the optional setup hook). -/
structure ModuleOptions where
  adapter : Option AdapterType
  setRequest : Option Bool
  setup : Option HookBehavior
deriving DecidableEq, Repr

/-- The guard of every initializer around setRequest: options?.setRequest
!== false, so absent options or an absent flag enable it. -/
def optSetRequestEnabled (opts : Option ModuleOptions) : Bool :=
  (opts.bind ModuleOptions.setRequest) != some false

/-- The adapter-type resolution of guard and interceptor: an explicit
non-auto setting wins, auto or an absent setting falls back to structural
detection on the request. -/
def resolveAdapterType (opts : Option ModuleOptions) (request : JsValue) :
    AdapterType :=
  match opts.bind ModuleOptions.adapter with
  | none =>
    if Adapters.detectAdapterType request = "fastify" then .fastify
    else .express
  | some .auto =>
    if Adapters.detectAdapterType request = "fastify" then .fastify
    else .express
  | some t => t

/-- setRequest as executed on a freshly opened scope store; the error branch
is unreachable because the scope is ambient at that point. -/
def applySetRequest (scope : Store) (request : JsValue) (t : AdapterType) :
    Store :=
  match RequestContextService.setRequest (some scope) request t with
  | .ok s => s
  | .error _ => scope

namespace ExpressContextMiddleware

/-- The continuation signal the middleware hands to Express. -/
inductive NextSignal where
  | nextOk
  | nextErr (e : String)
deriving DecidableEq, Repr

/-- Outcome of ExpressContextMiddleware.use: either next was invoked (with or
without an error argument), carrying the scope store at that point, or an
exception escaped use() synchronously. -/
inductive MwOutcome where
  | called (sig : NextSignal) (scopeStore : Store)
  | raisedSync (e : String)
deriving DecidableEq, Repr

/-- Whether the outcome is an error handed to next. -/
def MwOutcome.passedErrToNext : MwOutcome → Bool
  | .called (.nextErr _) _ => true
  | _ => false

/-- ExpressContextMiddleware.use: opens a scope, stores the request under the
configured adapter (defaulting to express), then runs the setup hook: a
promise result is chained into next()/next(err); a synchronous return falls
through to next(); a synchronous throw propagates out of
asyncLocalStorage.run and out of use() uncaught. -/
def use (opts : Option ModuleOptions) (request : JsValue) : MwOutcome :=
  let scope0 : Store := RequestContextService.newScopeStore []
  let scope1 :=
    if optSetRequestEnabled opts then
      applySetRequest scope0 request
        ((opts.bind ModuleOptions.adapter).getD AdapterType.express)
    else scope0
  match opts.bind ModuleOptions.setup with
  | none => .called .nextOk scope1
  | some .syncOk => .called .nextOk scope1
  | some (.syncThrow e) => .raisedSync e
  | some .asyncResolve => .called .nextOk scope1
  | some (.asyncReject e) => .called (.nextErr e) scope1

end ExpressContextMiddleware

namespace RequestContextGuard

/-- Settlement of the promise canActivate returns. -/
inductive GuardOutcome where
  | resolvedTrue
  | rejected (e : String)
deriving DecidableEq, Repr

/-- Observable effects of one canActivate call: the promise settlement,
whether the setup hook was invoked, the store of a newly opened scope (none
when no scope was opened), and the ambient scope at the call site when
canActivate returns. -/
structure GuardRun where
  outcome : GuardOutcome
  setupInvoked : Bool
  scopeStore : Option Store
  ambientAfter : RequestContextService.Ambient
deriving DecidableEq, Repr

/-- RequestContextGuard.canActivate (safety-net variant): when getStore()
already yields a store it returns true at once, before reading the request
or touching the store; otherwise it opens a scope, resolves the adapter
type, stores the request when enabled, awaits the setup hook, and resolves
true or rejects with the hook error. -/
def canActivate (amb : RequestContextService.Ambient)
    (opts : Option ModuleOptions) (request : JsValue) : GuardRun :=
  match amb with
  | some s => ⟨.resolvedTrue, false, none, some s⟩
  | none =>
    let adapterType := resolveAdapterType opts request
    let scope0 : Store := RequestContextService.newScopeStore []
    let scope1 :=
      if optSetRequestEnabled opts then applySetRequest scope0 request adapterType
      else scope0
    match opts.bind ModuleOptions.setup with
    | none => ⟨.resolvedTrue, false, some scope1, none⟩
    | some .syncOk => ⟨.resolvedTrue, true, some scope1, none⟩
    | some (.syncThrow e) => ⟨.rejected e, true, some scope1, none⟩
    | some .asyncResolve => ⟨.resolvedTrue, true, some scope1, none⟩
    | some (.asyncReject e) => ⟨.rejected e, true, some scope1, none⟩

end RequestContextGuard

namespace RequestContextInterceptor

/-- Outcome of the observable returned by intercept: either the downstream
handler was subscribed inside the scope (whose store is carried), or the
observable errored with the hook failure. -/
inductive ObsOutcome where
  | delegated (scopeStore : Store)
  | errored (e : String)
deriving DecidableEq, Repr

/-- RequestContextInterceptor.intercept: opens a scope, resolves the adapter
type, stores the request when enabled, awaits the setup hook; a hook error
(synchronous throw or promise rejection) is caught and forwarded to
subscriber.error, otherwise next.handle() is subscribed with pass-through of
next, error and complete. -/
def intercept (opts : Option ModuleOptions) (request : JsValue) : ObsOutcome :=
  let adapterType := resolveAdapterType opts request
  let scope0 : Store := RequestContextService.newScopeStore []
  let scope1 :=
    if optSetRequestEnabled opts then applySetRequest scope0 request adapterType
    else scope0
  match opts.bind ModuleOptions.setup with
  | none => .delegated scope1
  | some .syncOk => .delegated scope1
  | some (.syncThrow e) => .errored e
  | some .asyncResolve => .delegated scope1
  | some (.asyncReject e) => .errored e

end RequestContextInterceptor

/-- Relational reading of a getByPath walk, used to state the amended
path-lookup claim independently of the loop: Walks v segs w holds when
walking the segments segs from the value v by plain property access ends at
w, the value being neither undefined nor null each time a segment is about
to be consumed (every intermediate exists). -/
inductive Walks : JsValue → List String → JsValue → Prop where
  | done (v : JsValue) : Walks v [] v
  | step (v : JsValue) (p : String) (rest : List String) (w : JsValue)
      (h1 : v ≠ JsValue.undefined) (h2 : v ≠ JsValue.null)
      (hw : Walks (propAccess v p) rest w) : Walks v (p :: rest) w

/-! Helper lemmas. -/

/-- Reading an updated heap at the updated id. -/
theorem heap_update_self (h : ALS.Heap) (sid : Nat) (s : Store) :
    ALS.Heap.update h sid s sid = s := by
  simp [ALS.Heap.update]

/-- Reading an updated heap at a different id. -/
theorem heap_update_other (h : ALS.Heap) (sid n : Nat) (s : Store)
    (hne : n ≠ sid) : ALS.Heap.update h sid s n = h n := by
  simp [ALS.Heap.update, hne]

/-- Projection of an interleaved schedule onto one scope id: the heap entry
of that id and the observations of the callback bound to it are exactly
those of the sequential run of that callback in isolation on its own store.
Operations tagged with any other id can neither change the store nor the
observations of this one. -/
theorem runSched_proj (sched : List (Nat × ALS.CtxOp)) (h : ALS.Heap)
    (sid : Nat) :
    (ALS.runSched h sched).1 sid
        = (ALS.soloRun (h sid) (ALS.projOps sid sched)).1
      ∧ ALS.obsAt sid (ALS.runSched h sched).2
        = (ALS.soloRun (h sid) (ALS.projOps sid sched)).2 := by
  induction sched generalizing h with
  | nil => simp [ALS.runSched, ALS.projOps, ALS.obsAt, ALS.soloRun]
  | cons e rest ih =>
    obtain ⟨s, op⟩ := e
    by_cases hs : s = sid
    · subst hs
      cases op with
      | setOp k v =>
        have h2 := ih (ALS.Heap.update h s (mapSet (h s) k v))
        simpa [ALS.runSched, ALS.projOps, ALS.obsAt, ALS.soloRun,
          ALS.Heap.update] using h2
      | getOp k =>
        have h2 := ih h
        simp [ALS.runSched, ALS.projOps, ALS.obsAt, ALS.soloRun] at h2 ⊢
        exact h2
    · have hs' : sid ≠ s := fun hh => hs hh.symm
      cases op with
      | setOp k v =>
        have h2 := ih (ALS.Heap.update h s (mapSet (h s) k v))
        simpa [ALS.runSched, ALS.projOps, ALS.obsAt, ALS.soloRun,
          ALS.Heap.update, hs, hs'] using h2
      | getOp k =>
        have h2 := ih h
        simpa [ALS.runSched, ALS.projOps, ALS.obsAt, ALS.soloRun, hs, hs']
          using h2

/-- The heap after a run followed by a runAsync holds the first seeded store
at the first allocated id. -/
theorem run_then_runAsync_heap_first (st0 : RequestContextService.ScopeAlloc)
    (initA initB : List (String × JsValue)) :
    (RequestContextService.runAsync (RequestContextService.run st0 initA).2
        initB).2.heap (RequestContextService.run st0 initA).1
      = RequestContextService.newScopeStore initA := by
  simp [RequestContextService.run, RequestContextService.runAsync,
    ALS.Heap.update]

/-- The heap after a run followed by a runAsync holds the second seeded
store at the second allocated id. -/
theorem run_then_runAsync_heap_second (st0 : RequestContextService.ScopeAlloc)
    (initA initB : List (String × JsValue)) :
    (RequestContextService.runAsync (RequestContextService.run st0 initA).2
        initB).2.heap
        (RequestContextService.runAsync (RequestContextService.run st0 initA).2
          initB).1
      = RequestContextService.newScopeStore initB := by
  simp [RequestContextService.run, RequestContextService.runAsync,
    ALS.Heap.update]

/-- The two scope ids allocated by a run followed by a runAsync are
distinct: new Map() never aliases a live store. -/
theorem run_then_runAsync_ids_ne (st0 : RequestContextService.ScopeAlloc)
    (initA initB : List (String × JsValue)) :
    (RequestContextService.run st0 initA).1
      ≠ (RequestContextService.runAsync (RequestContextService.run st0 initA).2
          initB).1 := by
  simp only [RequestContextService.run, RequestContextService.runAsync]
  omega

/-- C1: for two concurrent run / runAsync invocations, each callback running
under any interleaving of the two callbacks (interleaving allowed at every
operation boundary, covering awaits inside runAsync callbacks) observes via
get exactly what the sequential run of that callback alone on its freshly
seeded store observes: a value set inside one callback is never observable
from the sibling scope, and a set issued by a callback (also after a
suspension) stays visible to the later gets of the same callback. -/
theorem claim_C1_scope_isolation (st0 : RequestContextService.ScopeAlloc)
    (initA initB : List (String × JsValue)) (opsA opsB : List ALS.CtxOp)
    (sched : List (Nat × ALS.CtxOp))
    (hA : ALS.projOps (RequestContextService.run st0 initA).1 sched = opsA)
    (hB : ALS.projOps
        (RequestContextService.runAsync (RequestContextService.run st0 initA).2
          initB).1 sched = opsB) :
    ALS.obsAt (RequestContextService.run st0 initA).1
        (ALS.runSched
          (RequestContextService.runAsync (RequestContextService.run st0 initA).2
            initB).2.heap sched).2
      = (ALS.soloRun (RequestContextService.newScopeStore initA) opsA).2
    ∧ ALS.obsAt
        (RequestContextService.runAsync (RequestContextService.run st0 initA).2
          initB).1
        (ALS.runSched
          (RequestContextService.runAsync (RequestContextService.run st0 initA).2
            initB).2.heap sched).2
      = (ALS.soloRun (RequestContextService.newScopeStore initB) opsB).2 := by
  constructor
  · have h1 := (runSched_proj sched
      (RequestContextService.runAsync (RequestContextService.run st0 initA).2
        initB).2.heap (RequestContextService.run st0 initA).1).2
    rw [run_then_runAsync_heap_first, hA] at h1
    exact h1
  · have h2 := (runSched_proj sched
      (RequestContextService.runAsync (RequestContextService.run st0 initA).2
        initB).2.heap
      (RequestContextService.runAsync (RequestContextService.run st0 initA).2
        initB).1).2
    rw [run_then_runAsync_heap_second, hB] at h2
    exact h2

/-- C1 witness: two concrete scopes, the sibling writing x while the first
callback is suspended between its own write of x and its read; the first
callback still reads its own value and the sibling reads its own. -/
theorem claim_C1_scope_isolation_witness :
    ALS.projOps 0
        [(1, ALS.CtxOp.setOp "x" (JsValue.num 99)),
          (0, ALS.CtxOp.setOp "x" (JsValue.num 1)),
          (1, ALS.CtxOp.getOp "x"), (0, ALS.CtxOp.getOp "x")]
      = [ALS.CtxOp.setOp "x" (JsValue.num 1), ALS.CtxOp.getOp "x"]
    ∧ ALS.projOps 1
        [(1, ALS.CtxOp.setOp "x" (JsValue.num 99)),
          (0, ALS.CtxOp.setOp "x" (JsValue.num 1)),
          (1, ALS.CtxOp.getOp "x"), (0, ALS.CtxOp.getOp "x")]
      = [ALS.CtxOp.setOp "x" (JsValue.num 99), ALS.CtxOp.getOp "x"]
    ∧ (ALS.obsAt 0
          (ALS.runSched
            (RequestContextService.runAsync
              (RequestContextService.run ⟨fun _ => [], 0⟩ []).2 []).2.heap
            [(1, ALS.CtxOp.setOp "x" (JsValue.num 99)),
              (0, ALS.CtxOp.setOp "x" (JsValue.num 1)),
              (1, ALS.CtxOp.getOp "x"), (0, ALS.CtxOp.getOp "x")]).2
        = (ALS.soloRun (RequestContextService.newScopeStore [])
            [ALS.CtxOp.setOp "x" (JsValue.num 1), ALS.CtxOp.getOp "x"]).2
      ∧ ALS.obsAt 1
          (ALS.runSched
            (RequestContextService.runAsync
              (RequestContextService.run ⟨fun _ => [], 0⟩ []).2 []).2.heap
            [(1, ALS.CtxOp.setOp "x" (JsValue.num 99)),
              (0, ALS.CtxOp.setOp "x" (JsValue.num 1)),
              (1, ALS.CtxOp.getOp "x"), (0, ALS.CtxOp.getOp "x")]).2
        = (ALS.soloRun (RequestContextService.newScopeStore [])
            [ALS.CtxOp.setOp "x" (JsValue.num 99), ALS.CtxOp.getOp "x"]).2) :=
  ⟨by decide, by decide,
    claim_C1_scope_isolation ⟨fun _ => [], 0⟩ [] []
      [ALS.CtxOp.setOp "x" (JsValue.num 1), ALS.CtxOp.getOp "x"]
      [ALS.CtxOp.setOp "x" (JsValue.num 99), ALS.CtxOp.getOp "x"]
      [(1, ALS.CtxOp.setOp "x" (JsValue.num 99)),
        (0, ALS.CtxOp.setOp "x" (JsValue.num 1)),
        (1, ALS.CtxOp.getOp "x"), (0, ALS.CtxOp.getOp "x")]
      (by decide) (by decide)⟩

/-- C2: set with no ambient scope throws the NoActiveContext error while get
with no ambient scope returns undefined without raising. -/
theorem claim_C2_no_context_set_get (k : String) (v : JsValue) :
    RequestContextService.set none k v = Except.error noActiveContextMsg
    ∧ RequestContextService.get none k = JsValue.undefined :=
  ⟨rfl, rfl⟩

/-- C5: when a scope is already ambient (isActive yields true) the
safety-net guard returns before touching anything: it resolves true,
invokes no setup hook, opens no scope, performs no store mutation, and
leaves the ambient scope exactly as it found it. -/
theorem claim_C5_guard_safety_net (s : Store) (opts : Option ModuleOptions)
    (request : JsValue) :
    RequestContextService.isActive (some s) = true
    ∧ RequestContextGuard.canActivate (some s) opts request
      = ⟨RequestContextGuard.GuardOutcome.resolvedTrue, false, none, some s⟩ :=
  ⟨rfl, rfl⟩

/-- C7: getInstance before onModuleInit throws the NotInitialized error;
after onModuleInit stored the instance it returns that instance without
error. -/
theorem claim_C7_singleton_lifecycle (self : Nat)
    (slot : RequestContextService.InstanceSlot) :
    RequestContextService.getInstance none = Except.error notInitializedMsg
    ∧ RequestContextService.getInstance
        (RequestContextService.onModuleInit self slot) = Except.ok self :=
  ⟨rfl, rfl⟩

/-- C10: setRequest with no ambient scope throws the NoActiveContext error
raised by its first delegated set call, producing no store. -/
theorem claim_C10_setRequest_no_context (request : JsValue) (t : AdapterType) :
    RequestContextService.setRequest none request t
      = Except.error noActiveContextMsg :=
  rfl

/-- C8: detectAdapterType answers fastify exactly for a truthy request whose
raw and server properties are both defined, and defaults to express for
everything else, null and undefined included. -/
theorem claim_C8_detectAdapterType (r : JsValue) :
    (Adapters.detectAdapterType r = "fastify"
      ↔ truthy r = true ∧ propAccess r "raw" ≠ JsValue.undefined
          ∧ propAccess r "server" ≠ JsValue.undefined)
    ∧ Adapters.detectAdapterType JsValue.null = "express"
    ∧ Adapters.detectAdapterType JsValue.undefined = "express" := by
  refine ⟨?_, rfl, rfl⟩
  unfold Adapters.detectAdapterType
  by_cases h1 : truthy r = true <;>
    by_cases h2 : propAccess r "raw" = JsValue.undefined <;>
      by_cases h3 : propAccess r "server" = JsValue.undefined <;>
        simp [h1, h2, h3]

/-- Reading back the key just written by Map.set. -/
theorem mapGet_mapSet_self (s : Store) (k : String) (v : JsValue) :
    mapGet (mapSet s k v) k = v := by
  induction s with
  | nil => simp [mapSet, mapGet]
  | cons e rest ih =>
    obtain ⟨k', v'⟩ := e
    by_cases h : k' = k <;> simp [mapSet, mapGet, h, ih]

/-- Map.has after Map.set of the same key. -/
theorem mapHas_mapSet_self (s : Store) (k : String) (v : JsValue) :
    mapHas (mapSet s k v) k = true := by
  induction s with
  | nil => simp [mapSet, mapHas]
  | cons e rest ih =>
    obtain ⟨k', v'⟩ := e
    by_cases h : k' = k <;> simp [mapSet, mapHas, h, ih]

/-- Map.set of one key preserves Map.has of every key already present. -/
theorem mapHas_mapSet_preserve (s : Store) (k k' : String) (v : JsValue)
    (h : mapHas s k = true) : mapHas (mapSet s k' v) k = true := by
  induction s with
  | nil => simp [mapHas] at h
  | cons e rest ih =>
    obtain ⟨k0, v0⟩ := e
    by_cases h0 : k0 = k'
    · subst h0
      by_cases h1 : k0 = k <;> simp_all [mapSet, mapHas]
    · by_cases h1 : k0 = k <;> simp_all [mapSet, mapHas]

/-- getAll never reports a key with the double-underscore prefix. -/
theorem mapHas_getAll_dunder (s : Store) (k : String)
    (hk : hasDunderPrefix k = true) :
    mapHas (RequestContextService.getAll (some s)) k = false := by
  unfold RequestContextService.getAll
  induction s with
  | nil => simp [mapHas]
  | cons e rest ih =>
    obtain ⟨k', v'⟩ := e
    by_cases h : hasDunderPrefix k' = true
    · simpa [List.filter_cons, h] using ih
    · have hne : k' ≠ k := fun hh => h (hh ▸ hk)
      simpa [List.filter_cons, h, mapHas, hne] using ih

/-- getAll is a shallow copy on every key without the double-underscore
prefix: looking such a key up in the getAll result agrees with the ambient
store. -/
theorem mapGet_getAll_user (s : Store) (k : String)
    (hk : hasDunderPrefix k = false) :
    mapGet (RequestContextService.getAll (some s)) k = mapGet s k := by
  unfold RequestContextService.getAll
  induction s with
  | nil => simp
  | cons e rest ih =>
    obtain ⟨k', v'⟩ := e
    by_cases h : hasDunderPrefix k' = true
    · have hne : k' ≠ k := fun hh => by rw [hh, hk] at h; exact Bool.false_ne_true h
      simpa [List.filter_cons, h, mapGet, hne] using ih
    · by_cases hkk : k' = k
      · simp [List.filter_cons, h, mapGet, hkk, hk]
      · simpa [List.filter_cons, h, mapGet, hkk] using ih

/-- The store produced by a successful setRequest: the three internal keys
written in order. -/
theorem setRequest_ok_eq (s s' : Store) (request : JsValue) (t : AdapterType)
    (h : RequestContextService.setRequest (some s) request t = Except.ok s') :
    s' = mapSet (mapSet (mapSet s INTERNAL_KEYS.REQUEST request)
        INTERNAL_KEYS.ADAPTER_TYPE (adapterTypeValue t))
        INTERNAL_KEYS.ADAPTER
        (adapterValue (Adapters.getAdapter t request)) := by
  have hdef : RequestContextService.setRequest (some s) request t
      = Except.ok (mapSet (mapSet (mapSet s INTERNAL_KEYS.REQUEST request)
          INTERNAL_KEYS.ADAPTER_TYPE (adapterTypeValue t))
          INTERNAL_KEYS.ADAPTER
          (adapterValue (Adapters.getAdapter t request))) := rfl
  rw [hdef] at h
  injection h with h2
  exact h2.symm

/-- C6: after setRequest populated the three reserved internal keys in the
ambient scope, getAll still reports none of them even though the store holds
all three; on every key without the reserved prefix getAll agrees with the
store (shallow copy of the user-visible entries); with no ambient scope
getAll is the empty mapping. -/
theorem claim_C6_getAll_excludes_internal (s s' : Store) (request : JsValue)
    (t : AdapterType) (k : String)
    (h : RequestContextService.setRequest (some s) request t = Except.ok s') :
    mapHas s' INTERNAL_KEYS.REQUEST = true
    ∧ mapHas s' INTERNAL_KEYS.ADAPTER = true
    ∧ mapHas s' INTERNAL_KEYS.ADAPTER_TYPE = true
    ∧ mapHas (RequestContextService.getAll (some s')) INTERNAL_KEYS.REQUEST
        = false
    ∧ mapHas (RequestContextService.getAll (some s')) INTERNAL_KEYS.ADAPTER
        = false
    ∧ mapHas (RequestContextService.getAll (some s'))
        INTERNAL_KEYS.ADAPTER_TYPE = false
    ∧ (hasDunderPrefix k = false →
        mapGet (RequestContextService.getAll (some s')) k = mapGet s' k)
    ∧ RequestContextService.getAll none = [] := by
  have hs := setRequest_ok_eq s s' request t h
  subst hs
  refine ⟨?_, mapHas_mapSet_self _ _ _, ?_, ?_, ?_, ?_,
    fun hk => mapGet_getAll_user _ k hk, rfl⟩
  · exact mapHas_mapSet_preserve _ _ _ _
      (mapHas_mapSet_preserve _ _ _ _ (mapHas_mapSet_self _ _ _))
  · exact mapHas_mapSet_preserve _ _ _ _ (mapHas_mapSet_self _ _ _)
  · exact mapHas_getAll_dunder _ _ (by decide)
  · exact mapHas_getAll_dunder _ _ (by decide)
  · exact mapHas_getAll_dunder _ _ (by decide)

/-- C6 witness: a concrete scope holding one user key, populated by
setRequest with the express adapter. -/
theorem claim_C6_getAll_excludes_internal_witness :
    RequestContextService.setRequest (some [("foo", JsValue.num 1)])
        (JsValue.host "req") AdapterType.express
      = Except.ok [("foo", JsValue.num 1),
          ("__request__", JsValue.host "req"),
          ("__adapter_type__", JsValue.str "express"),
          ("__adapter__", JsValue.host "expressAdapter")]
    ∧ hasDunderPrefix "foo" = false
    ∧ (mapHas [("foo", JsValue.num 1),
          ("__request__", JsValue.host "req"),
          ("__adapter_type__", JsValue.str "express"),
          ("__adapter__", JsValue.host "expressAdapter")]
        INTERNAL_KEYS.REQUEST = true
      ∧ mapHas [("foo", JsValue.num 1),
          ("__request__", JsValue.host "req"),
          ("__adapter_type__", JsValue.str "express"),
          ("__adapter__", JsValue.host "expressAdapter")]
        INTERNAL_KEYS.ADAPTER = true
      ∧ mapHas [("foo", JsValue.num 1),
          ("__request__", JsValue.host "req"),
          ("__adapter_type__", JsValue.str "express"),
          ("__adapter__", JsValue.host "expressAdapter")]
        INTERNAL_KEYS.ADAPTER_TYPE = true
      ∧ mapHas (RequestContextService.getAll
          (some [("foo", JsValue.num 1),
            ("__request__", JsValue.host "req"),
            ("__adapter_type__", JsValue.str "express"),
            ("__adapter__", JsValue.host "expressAdapter")]))
          INTERNAL_KEYS.REQUEST = false
      ∧ mapHas (RequestContextService.getAll
          (some [("foo", JsValue.num 1),
            ("__request__", JsValue.host "req"),
            ("__adapter_type__", JsValue.str "express"),
            ("__adapter__", JsValue.host "expressAdapter")]))
          INTERNAL_KEYS.ADAPTER = false
      ∧ mapHas (RequestContextService.getAll
          (some [("foo", JsValue.num 1),
            ("__request__", JsValue.host "req"),
            ("__adapter_type__", JsValue.str "express"),
            ("__adapter__", JsValue.host "expressAdapter")]))
          INTERNAL_KEYS.ADAPTER_TYPE = false
      ∧ (hasDunderPrefix "foo" = false →
          mapGet (RequestContextService.getAll
            (some [("foo", JsValue.num 1),
              ("__request__", JsValue.host "req"),
              ("__adapter_type__", JsValue.str "express"),
              ("__adapter__", JsValue.host "expressAdapter")])) "foo"
            = mapGet [("foo", JsValue.num 1),
                ("__request__", JsValue.host "req"),
                ("__adapter_type__", JsValue.str "express"),
                ("__adapter__", JsValue.host "expressAdapter")] "foo")
      ∧ RequestContextService.getAll none = []) :=
  ⟨rfl, by decide,
    claim_C6_getAll_excludes_internal [("foo", JsValue.num 1)]
      [("foo", JsValue.num 1), ("__request__", JsValue.host "req"),
        ("__adapter_type__", JsValue.str "express"),
        ("__adapter__", JsValue.host "expressAdapter")]
      (JsValue.host "req") AdapterType.express "foo" rfl⟩

/-- C9: a user value stored under a key with the double-underscore prefix is
readable via get and reported by has, yet getAll hides it exactly like the
reserved keys. -/
theorem claim_C9_dunder_keys_hidden (s s' : Store) (k : String) (v : JsValue)
    (hk : hasDunderPrefix k = true)
    (h : RequestContextService.set (some s) k v = Except.ok s') :
    RequestContextService.get (some s') k = v
    ∧ RequestContextService.has (some s') k = true
    ∧ mapHas (RequestContextService.getAll (some s')) k = false := by
  have hs : s' = mapSet s k v := by
    have hdef : RequestContextService.set (some s) k v
        = Except.ok (mapSet s k v) := rfl
    rw [hdef] at h
    injection h with h2
    exact h2.symm
  subst hs
  exact ⟨mapGet_mapSet_self s k v, mapHas_mapSet_self s k v,
    mapHas_getAll_dunder _ _ hk⟩

/-- C9 witness: the user key with the reserved-looking prefix stored in an
empty scope. -/
theorem claim_C9_dunder_keys_hidden_witness :
    hasDunderPrefix "__myKey" = true
    ∧ RequestContextService.set (some []) "__myKey" (JsValue.num 7)
      = Except.ok [("__myKey", JsValue.num 7)]
    ∧ (RequestContextService.get (some [("__myKey", JsValue.num 7)]) "__myKey"
        = JsValue.num 7
      ∧ RequestContextService.has (some [("__myKey", JsValue.num 7)]) "__myKey"
        = true
      ∧ mapHas (RequestContextService.getAll
          (some [("__myKey", JsValue.num 7)])) "__myKey" = false) :=
  ⟨by decide, rfl,
    claim_C9_dunder_keys_hidden [] [("__myKey", JsValue.num 7)] "__myKey"
      (JsValue.num 7) (by decide) rfl⟩

/-- C3 counterexample: with a = an object whose b field is null, getByPath
on a.b.c stops at the null intermediate and returns null itself, which is
not the absent value undefined the claim requires. -/
theorem claim_C3_counterexample :
    RequestContextService.getByPath
        (some [("a", JsValue.obj (JsFields.cons "b" JsValue.null JsFields.nil))])
        "a.b.c" = JsValue.null
    ∧ JsValue.null ≠ JsValue.undefined :=
  ⟨by decide, by decide⟩

/-- A completed walk equals the walkPath loop result: when the value is
neither undefined nor null each time a segment is consumed, the loop runs
through all segments and returns the final walked value. -/
theorem walkPath_of_walks (v w : JsValue) (segs : List String)
    (h : Walks v segs w) : RequestContextService.walkPath v segs = w := by
  induction h with
  | done v => rfl
  | step v q qs w h1 h2 hw ih =>
    rw [RequestContextService.walkPath]
    rw [if_neg (fun hc => hc.elim h1 h2)]
    exact ih

/-- A walk that reaches undefined or null while at least one segment
remains makes the walkPath loop stop and return that value itself. -/
theorem walkPath_stops (v w : JsValue) (pre post : List String) (p : String)
    (h : Walks v pre w) (hw : w = JsValue.undefined ∨ w = JsValue.null) :
    RequestContextService.walkPath v (pre ++ p :: post) = w := by
  revert hw
  induction h with
  | done v =>
    intro hw
    rw [List.nil_append, RequestContextService.walkPath, if_pos hw]
  | step v q qs w h1 h2 hwk ih =>
    intro hw
    rw [List.cons_append, RequestContextService.walkPath,
      if_neg (fun hc => hc.elim h1 h2)]
    exact ih hw

/-- C3 (amended): for every dotted path, getByPath splits the path on dots,
reads the first segment via get, then walks the remaining segments by plain
property access; whenever every walked intermediate exists (is neither
undefined nor null) it returns the final walked value, the stored nested
value; it never throws, returns undefined when no scope is ambient or the
path is empty, and returns undefined whenever the walk reaches undefined (a
missing intermediate) with segments remaining - but when the walk reaches a
null intermediate with segments remaining it returns that null itself
rather than undefined. -/
theorem claim_C3_getByPath_amended (amb : RequestContextService.Ambient)
    (path p0 p : String) (rest pre post : List String) (w : JsValue) :
    (path ≠ "" → splitOnDot path = p0 :: rest →
      Walks (RequestContextService.get amb p0) rest w →
      RequestContextService.getByPath amb path = w)
    ∧ (path ≠ "" → splitOnDot path = p0 :: (pre ++ p :: post) →
      Walks (RequestContextService.get amb p0) pre JsValue.undefined →
      RequestContextService.getByPath amb path = JsValue.undefined)
    ∧ (path ≠ "" → splitOnDot path = p0 :: (pre ++ p :: post) →
      Walks (RequestContextService.get amb p0) pre JsValue.null →
      RequestContextService.getByPath amb path = JsValue.null)
    ∧ RequestContextService.getByPath none path = JsValue.undefined
    ∧ RequestContextService.getByPath amb "" = JsValue.undefined := by
  refine ⟨?_, ?_, ?_, ?_, rfl⟩
  · intro hp hsplit hw
    unfold RequestContextService.getByPath
    rw [if_neg hp, hsplit]
    show RequestContextService.walkPath (RequestContextService.get amb p0)
      rest = w
    exact walkPath_of_walks _ _ _ hw
  · intro hp hsplit hw
    unfold RequestContextService.getByPath
    rw [if_neg hp, hsplit]
    show RequestContextService.walkPath (RequestContextService.get amb p0)
      (pre ++ p :: post) = JsValue.undefined
    exact walkPath_stops _ _ _ _ _ hw (Or.inl rfl)
  · intro hp hsplit hw
    unfold RequestContextService.getByPath
    rw [if_neg hp, hsplit]
    show RequestContextService.walkPath (RequestContextService.get amb p0)
      (pre ++ p :: post) = JsValue.null
    exact walkPath_stops _ _ _ _ _ hw (Or.inr rfl)
  · unfold RequestContextService.getByPath
    by_cases hp : path = ""
    · rw [if_pos hp]
    · rw [if_neg hp]
      cases hsp : splitOnDot path with
      | nil => rfl
      | cons q qs =>
        cases qs with
        | nil => rfl
        | cons r rs => rfl

/-- C3 witness: the amended claim applied at concrete inputs: the complete
walk on a scope where a holds an object with b.c = 5, a null stop one level
down with a segment remaining, and an undefined stop at a missing first
segment. -/
theorem claim_C3_getByPath_amended_witness :
    (("a.b.c" : String) ≠ ""
      ∧ splitOnDot "a.b.c" = "a" :: ["b", "c"]
      ∧ Walks (RequestContextService.get (some [("a", JsValue.obj
          (JsFields.cons "b" (JsValue.obj (JsFields.cons "c" (JsValue.num 5)
            JsFields.nil)) JsFields.nil))]) "a") ["b", "c"] (JsValue.num 5)
      ∧ RequestContextService.getByPath (some [("a", JsValue.obj
          (JsFields.cons "b" (JsValue.obj (JsFields.cons "c" (JsValue.num 5)
            JsFields.nil)) JsFields.nil))]) "a.b.c" = JsValue.num 5)
    ∧ (splitOnDot "a.b.c" = "a" :: (["b"] ++ "c" :: [])
      ∧ Walks (RequestContextService.get (some [("a", JsValue.obj
          (JsFields.cons "b" JsValue.null JsFields.nil))]) "a") ["b"]
          JsValue.null
      ∧ RequestContextService.getByPath (some [("a", JsValue.obj
          (JsFields.cons "b" JsValue.null JsFields.nil))]) "a.b.c"
        = JsValue.null)
    ∧ (splitOnDot "a.b.c" = "a" :: ([] ++ "b" :: ["c"])
      ∧ Walks (RequestContextService.get (some ([] : Store)) "a") []
          JsValue.undefined
      ∧ RequestContextService.getByPath (some ([] : Store)) "a.b.c"
        = JsValue.undefined) := by
  have w1 : Walks (RequestContextService.get (some [("a", JsValue.obj
      (JsFields.cons "b" (JsValue.obj (JsFields.cons "c" (JsValue.num 5)
        JsFields.nil)) JsFields.nil))]) "a") ["b", "c"] (JsValue.num 5) :=
    Walks.step _ "b" ["c"] _ (by decide) (by decide)
      (Walks.step _ "c" [] _ (by decide) (by decide) (Walks.done _))
  have w2 : Walks (RequestContextService.get (some [("a", JsValue.obj
      (JsFields.cons "b" JsValue.null JsFields.nil))]) "a") ["b"]
      JsValue.null :=
    Walks.step _ "b" [] _ (by decide) (by decide) (Walks.done _)
  have w3 : Walks (RequestContextService.get (some ([] : Store)) "a") []
      JsValue.undefined := Walks.done _
  refine ⟨⟨by decide, by decide, w1, ?_⟩, ⟨by decide, w2, ?_⟩,
    ⟨by decide, w3, ?_⟩⟩
  · exact (claim_C3_getByPath_amended _ "a.b.c" "a" "x" ["b", "c"] [] []
      (JsValue.num 5)).1 (by decide) (by decide) w1
  · exact (claim_C3_getByPath_amended _ "a.b.c" "a" "c" [] ["b"] []
      JsValue.undefined).2.2.1 (by decide) (by decide) w2
  · exact (claim_C3_getByPath_amended _ "a.b.c" "a" "b" [] [] ["c"]
      JsValue.undefined).2.1 (by decide) (by decide) w3

/-- C4 counterexample: a setup hook that throws synchronously under the
Express middleware makes the exception escape use() synchronously; the
error is not passed to next, contrary to the claim. -/
theorem claim_C4_counterexample :
    ExpressContextMiddleware.use
        (some ⟨none, none, some (HookBehavior.syncThrow "boom")⟩)
        (JsValue.host "req")
      = ExpressContextMiddleware.MwOutcome.raisedSync "boom"
    ∧ ExpressContextMiddleware.MwOutcome.passedErrToNext
        (ExpressContextMiddleware.use
          (some ⟨none, none, some (HookBehavior.syncThrow "boom")⟩)
          (JsValue.host "req"))
      = false :=
  ⟨rfl, rfl⟩

/-- C4 (amended): a setup-hook failure is never swallowed: the guard rejects
its returned promise and the interceptor errors its observable, for a
synchronous throw as well as a rejected awaitable; the Express middleware
passes the rejection of an awaitable to next, while a synchronous throw of
the hook escapes use() as a synchronous exception (surfacing to the
framework's own catch) instead of being passed to next. -/
theorem claim_C4_setup_failure_amended (e : String) (request : JsValue)
    (adp : Option AdapterType) (sr : Option Bool) :
    (∃ sc, ExpressContextMiddleware.use
        (some ⟨adp, sr, some (HookBehavior.asyncReject e)⟩) request
      = ExpressContextMiddleware.MwOutcome.called
          (ExpressContextMiddleware.NextSignal.nextErr e) sc)
    ∧ ExpressContextMiddleware.use
        (some ⟨adp, sr, some (HookBehavior.syncThrow e)⟩) request
      = ExpressContextMiddleware.MwOutcome.raisedSync e
    ∧ (RequestContextGuard.canActivate none
        (some ⟨adp, sr, some (HookBehavior.syncThrow e)⟩) request).outcome
      = RequestContextGuard.GuardOutcome.rejected e
    ∧ (RequestContextGuard.canActivate none
        (some ⟨adp, sr, some (HookBehavior.asyncReject e)⟩) request).outcome
      = RequestContextGuard.GuardOutcome.rejected e
    ∧ RequestContextInterceptor.intercept
        (some ⟨adp, sr, some (HookBehavior.syncThrow e)⟩) request
      = RequestContextInterceptor.ObsOutcome.errored e
    ∧ RequestContextInterceptor.intercept
        (some ⟨adp, sr, some (HookBehavior.asyncReject e)⟩) request
      = RequestContextInterceptor.ObsOutcome.errored e :=
  ⟨⟨_, rfl⟩, rfl, rfl, rfl, rfl, rfl⟩

end NestReqCtx
